import Mathlib

/-!
Verification of the umbra-protocol recipient-resolution core.

The ConfusableDetector (`isConfusing`, `makeSkeleton`, `zeroWidthPoints`) is a
shallow embedding of `src/frontend/src/utils/unicode-confusing.ts`.  A JS
string spread to code points is modelled as `List Char`; the entries of the
JS arrays `skeleton` and `original` are single-code-point strings, modelled
as `String` values.  The static table `confusables.json` is not part of the
sources, so the table is a parameter `List (Char × String)` (a JSON object:
single-code-point keys, string values), and JS property lookup is an
association-list lookup.
-/

set_option autoImplicit false
set_option maxRecDepth 8192

namespace Umbra

/-- The six code points of `zeroWidthPoints` in unicode-confusing.ts:
zero width space, zero width non-joiner, zero width joiner, BOM,
line separator, paragraph separator. -/
def zeroWidthPoints : List Char :=
  ['\u200b', '\u200c', '\u200d', '\ufeff', '\u2028', '\u2029']

/-- `zeroWidthPoints.has(point)` of the JS Set. -/
def isZeroWidth (c : Char) : Bool :=
  zeroWidthPoints.contains c

/-- `CONFUSABLES[point] || point`: the table value when present and truthy
(the empty string is falsy in JS, so it falls back to the point itself),
otherwise the single-code-point string of `point`. -/
def confSub (table : List (Char × String)) (point : Char) : String :=
  match table.find? (fun e => e.1 == point) with
  | some e => if e.2 = "" then String.mk [point] else e.2
  | none => String.mk [point]

/-- `makeSkeleton` of unicode-confusing.ts: a `reduce` that skips zero-width
points and pushes the confusables substitution of every other point. -/
def makeSkeleton (table : List (Char × String)) (s : List Char) : List String :=
  s.foldl
    (fun acc point =>
      if isZeroWidth point then acc else acc ++ [confSub table point])
    []

/-- `isConfusing` of unicode-confusing.ts: compares `skeleton[i]` with
`original[i]` for `0 ≤ i < skeleton.length`.  Since each input point
contributes at most one skeleton entry, `skeleton` is never longer than
`original`, so the JS index loop is exactly a `zip`/`any`. -/
def isConfusing (table : List (Char × String)) (s : List Char) : Bool :=
  let skeleton := makeSkeleton table s
  let original := s.map (fun c => String.mk [c])
  (skeleton.zip original).any (fun p => p.1 != p.2)

/-- Filter-map normal form of the skeleton, used for reasoning. -/
def skeletonF (table : List (Char × String)) (s : List Char) : List String :=
  (s.filter (fun c => !isZeroWidth c)).map (confSub table)

theorem makeSkeleton_aux (table : List (Char × String)) (s : List Char) :
    ∀ init : List String,
      s.foldl
        (fun acc point =>
          if isZeroWidth point then acc else acc ++ [confSub table point])
        init
      = init ++ skeletonF table s := by
  induction s with
  | nil => intro init; simp [skeletonF]
  | cons a rest ih =>
    intro init
    cases ha : isZeroWidth a with
    | true => simp [List.foldl_cons, ha, ih, skeletonF, List.filter_cons, ha]
    | false => simp [List.foldl_cons, ha, ih, skeletonF, List.filter_cons, ha]

theorem makeSkeleton_eq (table : List (Char × String)) (s : List Char) :
    makeSkeleton table s = skeletonF table s := by
  simpa [makeSkeleton] using makeSkeleton_aux table s []

theorem skeletonF_length_le (table : List (Char × String)) (s : List Char) :
    (skeletonF table s).length ≤ s.length := by
  simpa [skeletonF] using List.length_filter_le (fun c => !isZeroWidth c) s

theorem zip_any_ne_false_iff {l₁ l₂ : List String}
    (h : l₁.length ≤ l₂.length) :
    ((l₁.zip l₂).any (fun p => p.1 != p.2) = false) ↔
      l₁ = l₂.take l₁.length := by
  induction l₁ generalizing l₂ with
  | nil => simp
  | cons a t ih =>
    cases l₂ with
    | nil => simp at h
    | cons b t₂ =>
      have h' : t.length ≤ t₂.length := Nat.le_of_succ_le_succ h
      simp [List.zip_cons_cons, List.any_cons, ih h', List.take_succ_cons,
        Bool.or_eq_false_iff, bne_eq_false_iff_eq, and_comm]

theorem isConfusing_false_iff (table : List (Char × String)) (s : List Char) :
    isConfusing table s = false ↔
      makeSkeleton table s
        = (s.map (fun c => String.mk [c])).take (makeSkeleton table s).length := by
  have hlen : (makeSkeleton table s).length
      ≤ (s.map (fun c => String.mk [c])).length := by
    rw [makeSkeleton_eq, List.length_map]
    exact skeletonF_length_le table s
  simpa [isConfusing] using zip_any_ne_false_iff hlen

theorem isConfusing_true_iff (table : List (Char × String)) (s : List Char) :
    isConfusing table s = true ↔
      makeSkeleton table s
        ≠ (s.map (fun c => String.mk [c])).take (makeSkeleton table s).length := by
  by_cases heq : makeSkeleton table s
      = (s.map (fun c => String.mk [c])).take (makeSkeleton table s).length
  · constructor
    · intro htrue
      rw [(isConfusing_false_iff table s).mpr heq] at htrue
      exact Bool.noConfusion htrue
    · intro hne
      exact absurd heq hne
  · simp only [heq, ne_eq, not_false_eq_true, iff_true]
    cases h : isConfusing table s
    · exact absurd ((isConfusing_false_iff table s).mp h) heq
    · rfl

/-- A sample confusables table, consistent with the spec's description of the
static data (§6, §8.2): it maps a non-ASCII homoglyph to its ASCII canonical
form and maps no ASCII code point away from itself. -/
def sampleTable : List (Char × String) :=
  [('ℝ', "R")]

theorem mk_singleton_inj {a b : Char} (h : String.mk [a] = String.mk [b]) :
    a = b := by
  cases h; rfl

theorem confSub_mem_of_eq {table : List (Char × String)} {c : Char}
    {v : String} (h : confSub table c = v) (hne : v ≠ String.mk [c]) :
    ∃ e ∈ table, e.2 = v := by
  unfold confSub at h
  cases hf : table.find? (fun e => e.1 == c) with
  | none =>
    rw [hf] at h
    have h' : String.mk [c] = v := h
    exact absurd h'.symm hne
  | some e =>
    rw [hf] at h
    have h' : (if e.2 = "" then String.mk [c] else e.2) = v := h
    by_cases he : e.2 = ""
    · rw [if_pos he] at h'
      exact absurd h'.symm hne
    · rw [if_neg he] at h'
      exact ⟨e, List.mem_of_find?_eq_some hf, h'⟩

theorem confSub_ne_zw_mk (table : List (Char × String))
    (hvals : ∀ e ∈ table, ∀ z ∈ zeroWidthPoints, e.2 ≠ String.mk [z])
    {d : Char} (hd : isZeroWidth d = false)
    {z : Char} (hz : isZeroWidth z = true) :
    confSub table d ≠ String.mk [z] := by
  intro h
  have hmemz : z ∈ zeroWidthPoints := by
    have hz' := hz
    unfold isZeroWidth at hz'
    simpa using hz'
  have hdz : d ≠ z := by
    intro hdz; rw [hdz] at hd; rw [hd] at hz; exact Bool.noConfusion hz
  obtain ⟨e, hmem, hv⟩ := confSub_mem_of_eq h
    (fun hc => hdz (mk_singleton_inj hc).symm)
  exact hvals e hmem z hmemz hv

theorem skeleton_take_all_fixed (table : List (Char × String))
    (hvals : ∀ e ∈ table, ∀ z ∈ zeroWidthPoints, e.2 ≠ String.mk [z]) :
    ∀ s : List Char,
      skeletonF table s
        = (s.map (fun c => String.mk [c])).take (skeletonF table s).length →
      ∀ c ∈ s, isZeroWidth c = false → confSub table c = String.mk [c] := by
  intro s
  induction s with
  | nil => intro _ c hc; exact absurd hc (List.not_mem_nil c)
  | cons a rest ih =>
    intro H c hc hzc
    cases ha : isZeroWidth a with
    | true =>
      have hsk : skeletonF table (a :: rest) = skeletonF table rest := by
        simp [skeletonF, List.filter_cons, ha]
      rw [hsk] at H
      cases hs : skeletonF table rest with
      | nil =>
        have hall : ∀ x ∈ rest, isZeroWidth x = true := by
          intro x hx
          have hnil : rest.filter (fun c => !isZeroWidth c) = [] := by
            have hs' := hs
            unfold skeletonF at hs'
            exact List.map_eq_nil_iff.mp hs'
          have hx' := List.filter_eq_nil_iff.mp hnil x hx
          simpa using hx'
        rcases List.mem_cons.mp hc with rfl | hcr
        · rw [hzc] at ha; exact Bool.noConfusion ha
        · rw [hall c hcr] at hzc; exact Bool.noConfusion hzc
      | cons b tl =>
        rw [hs] at H
        rw [List.length_cons, List.map_cons, List.take_succ_cons] at H
        have hb : b = String.mk [a] := (List.cons_eq_cons.mp H).1
        cases hf : rest.filter (fun c => !isZeroWidth c) with
        | nil =>
          have hs' := hs
          unfold skeletonF at hs'
          rw [hf] at hs'
          exact absurd hs'.symm (List.cons_ne_nil b tl)
        | cons d ds =>
          have hdmemf : d ∈ rest.filter (fun c => !isZeroWidth c) := by
            rw [hf]; exact List.mem_cons_self d ds
          have hdmem : d ∈ rest := List.mem_of_mem_filter hdmemf
          have hdnzw : isZeroWidth d = false := by
            have hq := List.of_mem_filter hdmemf
            simpa using hq
          have hdb : confSub table d = b := by
            have hmap : skeletonF table rest
                = confSub table d :: ds.map (confSub table) := by
              unfold skeletonF; rw [hf]; rfl
            rw [hs] at hmap
            exact (List.cons_eq_cons.mp hmap.symm).1
          exact absurd (hdb.trans hb)
            (confSub_ne_zw_mk table hvals hdnzw ha)
    | false =>
      have hsk : skeletonF table (a :: rest)
          = confSub table a :: skeletonF table rest := by
        simp [skeletonF, List.filter_cons, ha]
      rw [hsk] at H
      rw [List.length_cons, List.map_cons, List.take_succ_cons] at H
      obtain ⟨H1, H2⟩ := List.cons_eq_cons.mp H
      rcases List.mem_cons.mp hc with rfl | hcr
      · exact H1
      · exact ih H2 c hcr hzc

/-- ASCII code point (0–127). -/
def asciiChar (c : Char) : Bool :=
  decide (c.toNat < 128)

theorem confSub_ascii_id (table : List (Char × String))
    (htab : ∀ e ∈ table, asciiChar e.1 = true →
      e.2 = String.mk [e.1] ∨ e.2 = "")
    {c : Char} (hc : asciiChar c = true) :
    confSub table c = String.mk [c] := by
  unfold confSub
  cases hf : table.find? (fun e => e.1 == c) with
  | none => rfl
  | some e =>
    have hmem := List.mem_of_find?_eq_some hf
    have hbeq := List.find?_some hf
    have he1 : e.1 = c := by simpa using hbeq
    show (if e.2 = "" then String.mk [c] else e.2) = String.mk [c]
    rcases htab e hmem (by rw [he1]; exact hc) with hv | hv
    · by_cases hemp : e.2 = ""
      · rw [if_pos hemp]
      · rw [if_neg hemp, hv, he1]
    · rw [if_pos hv]

/-- Claim C1, counterexample.  The claim asserts that zero-width code points
are removed from BOTH the skeleton and the original comparison sequence, so
that in particular a string with one interior U+200B compares equal to the
same string without it.  In the code
zero-width points are removed only while building the skeleton, while the
original sequence is compared raw, so an interior zero-width point shifts
the comparison and flags the string.  The table is instantiated with
`sampleTable`, which is ASCII-clean as the spec requires of the real
confusables table (§8.2). -/
theorem claim_c1_counterexample :
    isConfusing sampleTable "a\u200bb".data = true
      ∧ isConfusing sampleTable "ab".data = false := by
  exact ⟨by decide, by decide⟩

/-- Claim C1, amended: `isConfusing` returns true iff the skeleton (built by
dropping zero-width points and substituting the remaining points through the
table) differs from the raw original code-point sequence — with no zero-width
removal on the original side — at some index below the skeleton's length;
positions of the original beyond the skeleton's length are never examined and
no length check is performed. -/
theorem claim_c1_skeleton_vs_raw (table : List (Char × String))
    (s : List Char) :
    isConfusing table s = true ↔
      makeSkeleton table s
        ≠ (s.map (fun c => String.mk [c])).take (makeSkeleton table s).length :=
  isConfusing_true_iff table s

/-- Claim C2: a string containing a point that the table maps to a different
(non-empty, hence truthy) value is flagged, provided no table value is a
zero-width single-point string; and an all-ASCII string without zero-width
points is not flagged, provided the table maps no ASCII point away from
itself (either no entry, the identity, or the falsy empty string).  Both
table-shape hypotheses reflect the spec's description of the static
confusables data (§6, §8.2), which is not part of the sources. -/
theorem claim_c2_confusables (table : List (Char × String)) (s : List Char)
    (hvals : ∀ e ∈ table, ∀ z ∈ zeroWidthPoints, e.2 ≠ String.mk [z]) :
    ((∃ c ∈ s, isZeroWidth c = false ∧ confSub table c ≠ String.mk [c]) →
        isConfusing table s = true)
    ∧ ((∀ c ∈ s, asciiChar c = true) → (∀ c ∈ s, isZeroWidth c = false) →
        (∀ e ∈ table, asciiChar e.1 = true →
          e.2 = String.mk [e.1] ∨ e.2 = "") →
        isConfusing table s = false) := by
  constructor
  · rintro ⟨c, hcmem, hcnzw, hcne⟩
    cases h : isConfusing table s with
    | true => rfl
    | false =>
      have H := (isConfusing_false_iff table s).mp h
      rw [makeSkeleton_eq] at H
      exact absurd (skeleton_take_all_fixed table hvals s H c hcmem hcnzw)
        hcne
  · intro hascii hnzw htab
    apply (isConfusing_false_iff table s).mpr
    rw [makeSkeleton_eq]
    have hfilter : s.filter (fun c => !isZeroWidth c) = s := by
      apply List.filter_eq_self.mpr
      intro a ha; simp [hnzw a ha]
    have hmap : skeletonF table s = s.map (fun c => String.mk [c]) := by
      unfold skeletonF
      rw [hfilter]
      apply List.map_congr_left
      intro a ha
      exact confSub_ascii_id table htab (hascii a ha)
    rw [hmap, List.take_length]

/-- Witness for claim C2 at a concrete table and concrete strings. -/
theorem claim_c2_witness :
    isConfusing sampleTable "ℝ".data = true
      ∧ isConfusing sampleTable "abc".data = false :=
  ⟨(claim_c2_confusables sampleTable "ℝ".data (by decide)).1 (by decide),
   (claim_c2_confusables sampleTable "abc".data (by decide)).2
     (by decide) (by decide) (by decide)⟩

theorem zip_append_of_le :
    ∀ (l₁ l₂ l₃ : List String), l₁.length ≤ l₂.length →
      l₁.zip (l₂ ++ l₃) = l₁.zip l₂ := by
  intro l₁
  induction l₁ with
  | nil => intro _ _ _; simp
  | cons a t ih =>
    intro l₂ l₃ h
    cases l₂ with
    | nil => simp at h
    | cons b t₂ =>
      simp only [List.cons_append, List.zip_cons_cons]
      rw [ih t₂ l₃ (Nat.le_of_succ_le_succ h)]

/-- Claim C10: appending a zero-width code point to the end of any string
never changes `isConfusing` (the skeleton is unchanged and the comparison
loop never reaches the new trailing original position), and a string made
solely of zero-width points has an empty skeleton, hence is never flagged. -/
theorem claim_c10_zw_suffix (table : List (Char × String)) (s : List Char) :
    (∀ z, isZeroWidth z = true →
        isConfusing table (s ++ [z]) = isConfusing table s)
    ∧ ((∀ c ∈ s, isZeroWidth c = true) → isConfusing table s = false) := by
  constructor
  · intro z hz
    have hskel : makeSkeleton table (s ++ [z]) = makeSkeleton table s := by
      rw [makeSkeleton_eq, makeSkeleton_eq]
      unfold skeletonF
      rw [List.filter_append]
      simp [List.filter_cons, hz]
    have hlen : (makeSkeleton table s).length
        ≤ (s.map (fun c => String.mk [c])).length := by
      rw [makeSkeleton_eq, List.length_map]
      exact skeletonF_length_le table s
    simp only [isConfusing]
    rw [hskel, List.map_append]
    rw [zip_append_of_le _ _ _ hlen]
  · intro hall
    have hskel : makeSkeleton table s = [] := by
      rw [makeSkeleton_eq]
      unfold skeletonF
      have hnil : s.filter (fun c => !isZeroWidth c) = [] := by
        apply List.filter_eq_nil_iff.mpr
        intro a ha; simp [hall a ha]
      rw [hnil]; rfl
    simp [isConfusing, hskel]

/-- Witness for claim C10 at concrete strings and zero-width points. -/
theorem claim_c10_witness :
    isConfusing sampleTable ("ab".data ++ ['\u200b'])
        = isConfusing sampleTable "ab".data
      ∧ isConfusing sampleTable ['\u200b', '\ufeff'] = false :=
  ⟨(claim_c10_zw_suffix sampleTable "ab".data).1 '\u200b' (by decide),
   (claim_c10_zw_suffix sampleTable ['\u200b', '\ufeff']).2 (by decide)⟩

/-- Hex digit as accepted by the hex validation (0-9, a-f, A-F). -/
def hexDigit (c : Char) : Bool :=
  ('0' ≤ c && c ≤ '9') || ('a' ≤ c && c ≤ 'f') || ('A' ≤ c && c ≤ 'F')

/-- Modelled from the spec: §4.1 HexCodec.  The implementation file
(`utils.ts`, exercised by the tests in the sources) is absent from the
sources, so `padHex` follows §4.1: the value must consist solely of hex
digits (no 0x) and have at most `2*byteWidth` digits, and is left-padded
with '0' to exactly `2*byteWidth` digits; any other input fails with the
`InvalidHexInput` message.  The spec names a single failure kind for this
function, so an over-long value is modelled with the same failure. -/
def padHex (value : String) (byteWidth : Nat := 32) : Except String String :=
  if value.data.all hexDigit = true ∧ value.data.length ≤ 2 * byteWidth then
    Except.ok
      (String.mk
        (List.replicate (2 * byteWidth - value.data.length) '0' ++ value.data))
  else
    Except.error "Input must be a hex string without the 0x prefix"

/-- The string starts with the transport prefix 0x. -/
def has0x (s : String) : Bool :=
  s.data.take 2 == ['0', 'x']

/-- A 0x-prefixed 64-hex-digit transaction hash (66 characters). -/
def txHashFormat (h : String) : Bool :=
  h.data.length == 66 && h.data.take 2 == ['0', 'x']
    && (h.data.drop 2).all hexDigit

/-- A 0x04-prefixed 130-hex-digit uncompressed public key (132 characters),
the §3 PublicKey serialization shape. -/
def pubKeyFormat (k : String) : Bool :=
  k.data.length == 132 && k.data.take 4 == ['0', 'x', '0', '4']
    && (k.data.drop 2).all hexDigit

/-- A 0x-prefixed 40-hex-digit chain address (42 characters). -/
def addressFormat (a : String) : Bool :=
  a.data.length == 42 && a.data.take 2 == ['0', 'x']
    && (a.data.drop 2).all hexDigit

/-- Modelled from the spec: §4.3 accepts arbitrary (also non-string) inputs,
so the dynamically-typed argument is a closed sum of a string and a number. -/
inductive JsInput where
  | str (s : String)
  | num (n : Int)

/-- Modelled from the spec: §4.3/§6.  A fetched transaction carries a
serialized payload and signature components that uniquely determine the
signer's uncompressed public key (§4.3), so the transaction is modelled as
carrying that determined key directly; the elliptic-curve recovery
computation itself lives below the granularity of every claim. -/
structure Transaction where
  signerPublicKey : String

/-- The §3 KeyPair: a spending and a viewing public key. -/
structure KeyPair where
  spendingPublicKey : String
  viewingPublicKey : String
deriving DecidableEq

/-- The registry a query is directed at: the address-keyed key registry of
§4.4.3, or one of the two name registries of §4.4.4/§4.4.5. -/
inductive RegistryKind where
  | addressRegistry
  | registryA
  | registryB
deriving DecidableEq

/-- Modelled from the spec: §6 QueryInterface — fetch-transaction-by-hash,
resolve-name-to-address and resolve-to-key-record queries, all read-only. -/
structure QueryInterface where
  getTransaction : String → Option Transaction
  resolveNameToAddress : String → RegistryKind → Option String
  getKeyRecord : String → RegistryKind → Option KeyPair

/-- Modelled from the spec: process-wide static configuration — the
confusables table (§6) and the two registry name suffixes (§4.4.4, §4.4.5),
kept generic as the spec does. -/
structure ResolverConfig where
  confusables : List (Char × String)
  suffixA : String
  suffixB : String

/-- Modelled from the spec: §4.3 TransactionKeyRecoverer.  Validates the
hash shape before touching the query interface (a non-string or malformed
input fails with the `InvalidTransactionHash` message), maps a missing
transaction to the `TransactionNotFound` message, and otherwise returns the
signer's recovered uncompressed public key. -/
def recoverPublicKeyFromTransaction (hash : JsInput)
    (chain : QueryInterface) : Except String String :=
  match hash with
  | .num _ => Except.error "Invalid transaction hash provided"
  | .str h =>
    if txHashFormat h then
      match chain.getTransaction h with
      | none =>
        Except.error
          "Transaction not found. Are the provider and transaction hash on the same network?"
      | some tx => Except.ok tx.signerPublicKey
    else Except.error "Invalid transaction hash provided"

/-- Modelled from the spec: §4.4.4/§4.4.5 — the shared name-resolution path:
confusables guard, forward name-to-address resolution (`NameNotRegistered`
when no resolver is set), then the registry's two-key record query. -/
def resolveName (cfg : ResolverConfig) (identifier : String)
    (chain : QueryInterface) (r : RegistryKind) : Except String KeyPair :=
  if isConfusing cfg.confusables identifier.data then
    Except.error "ConfusingIdentifier"
  else
    match chain.resolveNameToAddress identifier r with
    | none => Except.error "NameNotRegistered"
    | some _ =>
      match chain.getKeyRecord identifier r with
      | some kp => Except.ok kp
      | none => Except.error "KeysNotFound"

/-- Modelled from the spec: §4.4 RecipientResolver.  Classification is by
string shape in the spec's priority order: public-key literal, transaction
hash, chain address, registry-A name, registry-B name, otherwise
unsupported.  Error kinds whose message text the spec leaves open
(`KeysNotFound`, `ConfusingIdentifier`, `NameNotRegistered`,
`UnsupportedIdentifierFormat`) are modelled with the kind name as the
message. -/
def lookupRecipient (cfg : ResolverConfig) (identifier : String)
    (chain : QueryInterface) : Except String KeyPair :=
  if pubKeyFormat identifier then
    Except.ok ⟨identifier, identifier⟩
  else if txHashFormat identifier then
    match recoverPublicKeyFromTransaction (.str identifier) chain with
    | .ok k => Except.ok ⟨k, k⟩
    | .error e => Except.error e
  else if addressFormat identifier then
    match chain.getKeyRecord identifier .addressRegistry with
    | some kp => Except.ok kp
    | none => Except.error "KeysNotFound"
  else if cfg.suffixA.data.isSuffixOf identifier.data then
    resolveName cfg identifier chain .registryA
  else if cfg.suffixB.data.isSuffixOf identifier.data then
    resolveName cfg identifier chain .registryB
  else
    Except.error "UnsupportedIdentifierFormat"

/-- Resolver configuration used by the concrete witnesses: the sample
confusables table and the two name-registry suffixes of the test fixtures. -/
def sampleConfig : ResolverConfig :=
  ⟨sampleTable, ".eth", ".crypto"⟩

/-- A query interface on which every lookup misses. -/
def emptyChain : QueryInterface :=
  ⟨fun _ => none, fun _ _ => none, fun _ _ => none⟩

/-- The 132-character uncompressed public key of the test fixtures. -/
def testPublicKey : String :=
  "0x04df3d784d6d1e55fabf44b7021cf17c00a6cccc53fea00d241952ac2eebc46dc674c91e60ccd97576c1ba2a21beed21f7b02aee089f2eeec357ffd349488a7cee"

/-- The transaction hash of the test fixtures. -/
def testTxHash : String :=
  "0x45fa716ee2d484ac67ef787625908072d851bfa369db40567e16ee08a7fdefd2"

/-- A query interface knowing exactly the fixture transaction. -/
def testChain : QueryInterface :=
  ⟨fun h => if h = testTxHash then some ⟨testPublicKey⟩ else none,
   fun _ _ => none, fun _ _ => none⟩

/-- Claim C3: a 130-hex-digit 0x04-prefixed public-key string is classified
by shape alone and returned verbatim as both keys of the KeyPair, for every
query interface — no network query participates in the result. -/
theorem claim_c3_pubkey_verbatim (cfg : ResolverConfig)
    (chain : QueryInterface) (k : String) (hk : pubKeyFormat k = true) :
    lookupRecipient cfg k chain = Except.ok ⟨k, k⟩ := by
  simp [lookupRecipient, hk]

/-- Witness for claim C3 at the fixture public key. -/
theorem claim_c3_witness :
    lookupRecipient sampleConfig testPublicKey emptyChain
      = Except.ok ⟨testPublicKey, testPublicKey⟩ :=
  claim_c3_pubkey_verbatim sampleConfig emptyChain testPublicKey (by decide)

theorem pubKeyFormat_ne_of_txHash {h : String}
    (hh : txHashFormat h = true) : pubKeyFormat h = false := by
  have hlen : h.data.length = 66 := by
    simp only [txHashFormat, Bool.and_eq_true, beq_iff_eq] at hh
    exact hh.1.1
  simp [pubKeyFormat, hlen]

/-- Claim C4: for a 66-hex-digit 0x-prefixed identifier, `lookupRecipient`
returns exactly the wrapping of `recoverPublicKeyFromTransaction` into a
KeyPair with both fields set to the recovered key, failing exactly when the
recovery fails. -/
theorem claim_c4_txhash_delegation (cfg : ResolverConfig)
    (chain : QueryInterface) (h : String) (hh : txHashFormat h = true) :
    lookupRecipient cfg h chain
      = (recoverPublicKeyFromTransaction (.str h) chain).map
          (fun k => ⟨k, k⟩) := by
  have hpk := pubKeyFormat_ne_of_txHash hh
  simp only [lookupRecipient, hpk, hh, Bool.false_eq_true, if_false, if_true]
  cases hr : recoverPublicKeyFromTransaction (.str h) chain <;>
    simp [Except.map]

/-- Witness for claim C4 at the fixture hash on a chain that has it. -/
theorem claim_c4_witness :
    lookupRecipient sampleConfig testTxHash testChain
      = (recoverPublicKeyFromTransaction (.str testTxHash) testChain).map
          (fun k => ⟨k, k⟩) :=
  claim_c4_txhash_delegation sampleConfig testChain testTxHash (by decide)

/-- The §4.3 well-formedness of a dynamically-typed hash argument: a string
of transaction-hash shape. -/
def validTxInput : JsInput → Bool
  | .str h => txHashFormat h
  | .num _ => false

/-- Claim C6: any input that is not a 0x-prefixed 64-hex-digit string — a
malformed string or a number — is rejected with exactly the
`InvalidTransactionHash` message, uniformly in the query interface (the
result never consults it, so no network call is needed). -/
theorem claim_c6_invalid_hash (input : JsInput) (chain : QueryInterface)
    (hbad : validTxInput input = false) :
    recoverPublicKeyFromTransaction input chain
      = Except.error "Invalid transaction hash provided" := by
  cases input with
  | num n => rfl
  | str h =>
    have hh : txHashFormat h = false := hbad
    simp [recoverPublicKeyFromTransaction, hh]

/-- Witness for claim C6 at the string 'q' and the number 1. -/
theorem claim_c6_witness :
    recoverPublicKeyFromTransaction (.str "q") emptyChain
        = Except.error "Invalid transaction hash provided"
      ∧ recoverPublicKeyFromTransaction (.num 1) emptyChain
        = Except.error "Invalid transaction hash provided" :=
  ⟨claim_c6_invalid_hash (.str "q") emptyChain (by decide),
   claim_c6_invalid_hash (.num 1) emptyChain (by decide)⟩

/-- Claim C7: a well-formed transaction hash that the query interface does
not know fails with exactly the `TransactionNotFound` message. -/
theorem claim_c7_tx_not_found (h : String) (chain : QueryInterface)
    (hh : txHashFormat h = true) (hn : chain.getTransaction h = none) :
    recoverPublicKeyFromTransaction (.str h) chain
      = Except.error
          "Transaction not found. Are the provider and transaction hash on the same network?" := by
  simp [recoverPublicKeyFromTransaction, hh, hn]

/-- The mainnet transaction hash the fixtures query on the wrong network. -/
def mainnetTxHash : String :=
  "0xce4209b4cf80e249502d770dd7f2b19ceb22bbb2cfb49500fe0a32d95b127e81"

/-- Witness for claim C7 at the fixture mainnet hash on an empty chain. -/
theorem claim_c7_witness :
    recoverPublicKeyFromTransaction (.str mainnetTxHash) emptyChain
      = Except.error
          "Transaction not found. Are the provider and transaction hash on the same network?" :=
  claim_c7_tx_not_found mainnetTxHash emptyChain (by decide) rfl

theorem all_hex_false_of_mem {l : List Char} {c : Char} (hc : c ∈ l)
    (hcx : hexDigit c = false) : l.all hexDigit = false := by
  cases hA : l.all hexDigit with
  | false => rfl
  | true =>
    have := List.all_eq_true.mp hA c hc
    rw [hcx] at this
    exact Bool.noConfusion this

/-- Claim C8: `padHex` rejects any value containing a non-hex character and
any 0x-prefixed value, in both cases with exactly the `InvalidHexInput`
message. -/
theorem claim_c8_padhex_rejects (v : String) (w : Nat)
    (hbad : (∃ c ∈ v.data, hexDigit c = false) ∨ has0x v = true) :
    padHex v w
      = Except.error "Input must be a hex string without the 0x prefix" := by
  have hall : v.data.all hexDigit = false := by
    rcases hbad with ⟨c, hc, hcx⟩ | h0x
    · exact all_hex_false_of_mem hc hcx
    · have htake : v.data.take 2 = ['0', 'x'] := by
        simpa [has0x] using h0x
      have hx : 'x' ∈ v.data := by
        apply List.take_subset 2 v.data
        rw [htake]
        exact List.mem_cons_of_mem _ (List.mem_cons_self _ _)
      exact all_hex_false_of_mem hx (by decide)
  simp [padHex, hall]

/-- Witness for claim C8 at the fixture inputs 'q' and '0x1'. -/
theorem claim_c8_witness :
    padHex "q" 32
        = Except.error "Input must be a hex string without the 0x prefix"
      ∧ padHex "0x1" 32
        = Except.error "Input must be a hex string without the 0x prefix" :=
  ⟨claim_c8_padhex_rejects "q" 32 (Or.inl (by decide)),
   claim_c8_padhex_rejects "0x1" 32 (Or.inr (by decide))⟩

theorem replicate_all_hex (n : Nat) :
    (List.replicate n '0').all hexDigit = true := by
  apply List.all_eq_true.mpr
  intro x hx
  rw [(List.mem_replicate.mp hx).2]
  decide

/-- Claim C9: on a valid hex value of at most `2*byteWidth` digits, `padHex`
returns the value left-padded with '0' to exactly `2*byteWidth` digits, and
applying `padHex` to its own output returns that output unchanged. -/
theorem claim_c9_padhex_idempotent (x : String) (w : Nat)
    (hhex : x.data.all hexDigit = true) (hlen : x.data.length ≤ 2 * w) :
    padHex x w
        = Except.ok
            (String.mk
              (List.replicate (2 * w - x.data.length) '0' ++ x.data))
      ∧ (padHex x w).bind (fun y => padHex y w) = padHex x w
      ∧ ∀ y, padHex x w = Except.ok y → y.data.length = 2 * w := by
  have h1 : padHex x w
      = Except.ok
          (String.mk
            (List.replicate (2 * w - x.data.length) '0' ++ x.data)) := by
    unfold padHex
    rw [if_pos (And.intro hhex hlen)]
  have hy_all :
      (List.replicate (2 * w - x.data.length) '0' ++ x.data).all hexDigit
        = true := by
    rw [List.all_append, replicate_all_hex, hhex]
    rfl
  have hy_len :
      (List.replicate (2 * w - x.data.length) '0' ++ x.data).length
        = 2 * w := by
    rw [List.length_append, List.length_replicate]
    omega
  refine ⟨h1, ?_, ?_⟩
  · rw [h1]
    show padHex
        (String.mk (List.replicate (2 * w - x.data.length) '0' ++ x.data)) w
      = Except.ok
          (String.mk (List.replicate (2 * w - x.data.length) '0' ++ x.data))
    unfold padHex
    rw [if_pos (And.intro hy_all (le_of_eq hy_len))]
    show Except.ok
        (String.mk
          (List.replicate
              (2 * w
                - (List.replicate (2 * w - x.data.length) '0'
                    ++ x.data).length) '0'
            ++ (List.replicate (2 * w - x.data.length) '0' ++ x.data)))
      = Except.ok
          (String.mk (List.replicate (2 * w - x.data.length) '0' ++ x.data))
    rw [hy_len, Nat.sub_self, List.replicate_zero, List.nil_append]
  · intro y hy
    rw [h1] at hy
    cases hy
    show (List.replicate (2 * w - x.data.length) '0' ++ x.data).length = 2 * w
    exact hy_len

/-- Witness for claim C9 at the fixture short hex value and width 16. -/
theorem claim_c9_witness :
    padHex "1234" 16 = Except.ok "00000000000000000000000000001234" := by
  rw [(claim_c9_padhex_idempotent "1234" 16 (by decide) (by decide)).1]
  rfl

/-- The secp256k1 field modulus. -/
def secpP : Nat :=
  2 ^ 256 - 2 ^ 32 - 977

/-- Numeric value of a hex digit. -/
def hexCharVal (c : Char) : Nat :=
  if c ≤ '9' then c.toNat - '0'.toNat
  else if c ≤ 'F' then c.toNat - 'A'.toNat + 10
  else c.toNat - 'a'.toNat + 10

/-- Big-endian numeric value of a hex digit sequence. -/
def hexToNat (l : List Char) : Nat :=
  l.foldl (fun a c => 16 * a + hexCharVal c) 0

/-- Whether (x, y) is an affine point of secp256k1, i.e. y² = x³ + 7 in the
prime field of `secpP`. -/
def isOnCurve (x y : Nat) : Bool :=
  decide (x < secpP) && decide (y < secpP)
    && (y * y % secpP == (x * x * x + 7) % secpP)

/-- A 130-hex-digit 0x04-prefixed serialization of an actual point on the
secp256k1 curve: the shape of `pubKeyFormat` with the two encoded 32-byte
coordinates satisfying the curve equation. -/
def uncompressedPointSer (k : String) : Bool :=
  pubKeyFormat k
    && isOnCurve (hexToNat ((k.data.drop 4).take 64))
        (hexToNat (k.data.drop 68))

/-- The shape-valid key string 0x04 followed by 128 zeros, encoding the
coordinates (0, 0), which do not lie on the secp256k1 curve. -/
def zeroPadKey : String :=
  String.mk (['0', 'x', '0', '4'] ++ List.replicate 128 '0')

/-- Claim C5, counterexample.  The claim says every successfully returned
key is a valid serialization of an uncompressed secp256k1 point; but the
public-key-literal branch classifies by string shape alone (§3, §4.4.1) and
returns the identifier verbatim, so a shape-valid key whose coordinates are
not on the curve — here (0, 0) — is returned successfully while being no
point serialization at all. -/
theorem claim_c5_counterexample :
    lookupRecipient sampleConfig zeroPadKey emptyChain
        = Except.ok ⟨zeroPadKey, zeroPadKey⟩
      ∧ uncompressedPointSer zeroPadKey = false :=
  ⟨rfl, by decide⟩

/-- The §6 contract on key material crossing the query interface: every key
the chain hands back is in the §3 serialization shape (the interface's
record and transaction types are specified to carry PublicKey values). -/
def ChainReturnsValidKeys (chain : QueryInterface) : Prop :=
  (∀ h tx, chain.getTransaction h = some tx →
    pubKeyFormat tx.signerPublicKey = true)
  ∧ (∀ a r kp, chain.getKeyRecord a r = some kp →
      pubKeyFormat kp.spendingPublicKey = true
        ∧ pubKeyFormat kp.viewingPublicKey = true)

theorem recover_ok_format (chain : QueryInterface)
    (hwf : ∀ h tx, chain.getTransaction h = some tx →
      pubKeyFormat tx.signerPublicKey = true)
    (input : JsInput) (k : String)
    (hr : recoverPublicKeyFromTransaction input chain = Except.ok k) :
    pubKeyFormat k = true := by
  cases input with
  | num n => exact Except.noConfusion hr
  | str h =>
    simp only [recoverPublicKeyFromTransaction] at hr
    by_cases hh : txHashFormat h = true
    · rw [if_pos hh] at hr
      cases ht : chain.getTransaction h with
      | none =>
        rw [ht] at hr
        exact Except.noConfusion
          (show Except.error
              "Transaction not found. Are the provider and transaction hash on the same network?"
            = Except.ok k from hr)
      | some tx =>
        rw [ht] at hr
        have hr' : Except.ok tx.signerPublicKey = Except.ok k := hr
        injection hr' with hk
        rw [← hk]
        exact hwf h tx ht
    · rw [if_neg hh] at hr
      exact Except.noConfusion hr

theorem resolveName_ok_format (cfg : ResolverConfig)
    (chain : QueryInterface) (identifier : String) (r : RegistryKind)
    (kp : KeyPair)
    (hwf : ∀ a r kp, chain.getKeyRecord a r = some kp →
      pubKeyFormat kp.spendingPublicKey = true
        ∧ pubKeyFormat kp.viewingPublicKey = true)
    (hok : resolveName cfg identifier chain r = Except.ok kp) :
    pubKeyFormat kp.spendingPublicKey = true
      ∧ pubKeyFormat kp.viewingPublicKey = true := by
  unfold resolveName at hok
  by_cases hc : isConfusing cfg.confusables identifier.data = true
  · rw [if_pos hc] at hok
    exact Except.noConfusion hok
  · rw [if_neg hc] at hok
    cases hn : chain.resolveNameToAddress identifier r with
    | none =>
      rw [hn] at hok
      exact Except.noConfusion
        (show Except.error "NameNotRegistered" = Except.ok kp from hok)
    | some addr =>
      rw [hn] at hok
      cases hg : chain.getKeyRecord identifier r with
      | none =>
        rw [hg] at hok
        exact Except.noConfusion
          (show Except.error "KeysNotFound" = Except.ok kp from hok)
      | some kp' =>
        rw [hg] at hok
        have hok' : Except.ok kp' = Except.ok kp := hok
        injection hok' with h
        subst h
        exact hwf identifier r kp' hg

/-- Claim C5, amended: whenever `lookupRecipient` succeeds on a query
interface honoring the §6 key-shape contract, both keys of the returned
KeyPair are 130-hex-digit 0x04-prefixed serializations (the uncompressed
point FORMAT); membership of the encoded coordinates on the secp256k1 curve
itself is not guaranteed — the public-key-literal branch is shape-checked
only (see the counterexample). -/
theorem claim_c5_format_invariant (cfg : ResolverConfig)
    (chain : QueryInterface) (identifier : String) (kp : KeyPair)
    (hwf : ChainReturnsValidKeys chain)
    (hok : lookupRecipient cfg identifier chain = Except.ok kp) :
    pubKeyFormat kp.spendingPublicKey = true
      ∧ pubKeyFormat kp.viewingPublicKey = true := by
  unfold lookupRecipient at hok
  by_cases h1 : pubKeyFormat identifier = true
  · rw [if_pos h1] at hok
    have hok' : Except.ok (⟨identifier, identifier⟩ : KeyPair)
        = Except.ok kp := hok
    injection hok' with h
    subst h
    exact ⟨h1, h1⟩
  · rw [if_neg h1] at hok
    by_cases h2 : txHashFormat identifier = true
    · rw [if_pos h2] at hok
      cases hr : recoverPublicKeyFromTransaction (.str identifier) chain with
      | ok k =>
        rw [hr] at hok
        have hok' : Except.ok (⟨k, k⟩ : KeyPair) = Except.ok kp := hok
        injection hok' with h
        subst h
        have hk := recover_ok_format chain hwf.1 (.str identifier) k hr
        exact ⟨hk, hk⟩
      | error e =>
        rw [hr] at hok
        exact Except.noConfusion
          (show Except.error e = Except.ok kp from hok)
    · rw [if_neg h2] at hok
      by_cases h3 : addressFormat identifier = true
      · rw [if_pos h3] at hok
        cases hg : chain.getKeyRecord identifier .addressRegistry with
        | none =>
          rw [hg] at hok
          exact Except.noConfusion
            (show Except.error "KeysNotFound" = Except.ok kp from hok)
        | some kp' =>
          rw [hg] at hok
          have hok' : Except.ok kp' = Except.ok kp := hok
          injection hok' with h
          subst h
          exact hwf.2 identifier .addressRegistry kp' hg
      · rw [if_neg h3] at hok
        by_cases h4 : cfg.suffixA.data.isSuffixOf identifier.data = true
        · rw [if_pos h4] at hok
          exact resolveName_ok_format cfg chain identifier .registryA kp
            hwf.2 hok
        · rw [if_neg h4] at hok
          by_cases h5 : cfg.suffixB.data.isSuffixOf identifier.data = true
          · rw [if_pos h5] at hok
            exact resolveName_ok_format cfg chain identifier .registryB kp
              hwf.2 hok
          · rw [if_neg h5] at hok
            exact Except.noConfusion hok

/-- Witness for the amended claim C5 at a concrete successful resolution. -/
theorem claim_c5_witness :
    pubKeyFormat
        (⟨testPublicKey, testPublicKey⟩ : KeyPair).spendingPublicKey = true
      ∧ pubKeyFormat
          (⟨testPublicKey, testPublicKey⟩ : KeyPair).viewingPublicKey
        = true :=
  claim_c5_format_invariant sampleConfig emptyChain testPublicKey
    ⟨testPublicKey, testPublicKey⟩
    ⟨fun _ _ hsome => Option.noConfusion hsome,
     fun _ _ _ hsome => Option.noConfusion hsome⟩
    rfl
